import Mathlib

/-!
Verification of the Retail-Threat-Detection pipeline and dashboard.

The development shallowly embeds the feature-engineering / scoring script
(`dataExploration.py`) and the dashboard's query construction (`dashboard.py`)
as executable Lean definitions over rationals and lists, and proves the
specified properties about them.
-/

namespace RetailThreat

/-- The three risk tiers produced by `classify_risk` in `dataExploration.py`. -/
inductive RiskLevel where
  | Low
  | Medium
  | High
  deriving DecidableEq, Repr

/-- Rank of a risk level under the order Low < Medium < High. -/
def levelRank : RiskLevel → ℕ
  | .Low => 0
  | .Medium => 1
  | .High => 2

/-- `classify_risk` from `dataExploration.py` lines 131-137: scores below
`low_thresh` are Low, scores below `high_thresh` (but not below `low_thresh`)
are Medium, everything else is High.  The thresholds are the 75th and 95th
percentile of `risk_score`, computed once over the whole scored table and
captured by the function; here they are explicit parameters. -/
def classify_risk (low_thresh high_thresh : ℚ) (score : ℚ) : RiskLevel :=
  if score < low_thresh then .Low
  else if score < high_thresh then .Medium
  else .High

/-- `merged_df['risk_level'] = merged_df['risk_score'].apply(classify_risk)`
(line 139): the classifier is mapped over the scored column with the same
fixed global thresholds. -/
def assignRiskLevels (low_thresh high_thresh : ℚ) (scores : List ℚ) : List RiskLevel :=
  scores.map (classify_risk low_thresh high_thresh)

/-! ### Per-user baseline statistics and spike features

Lines 54-64 of `dataExploration.py` group the merged table by `user`, compute
the mean and (sample) standard deviation of each count measure over the
user's own rows, broadcast them back, and form the z-score
`(value - user_mean) / user_std`.  The arithmetic runs on floating-point
columns, so a value can be an exact number, NaN (from `0/0` or from the
standard deviation of a single-row group), a signed infinity (from `x/0`
with `x` nonzero), or an irrational real (from a square root).  `RVal`
models these possibilities; the exact magnitude of an irrational result is
not tracked, which is irrelevant to the claims below. -/

/-- A floating value occurring in the spike computation. -/
inductive RVal where
  | num (q : ℚ)
  | nan
  | posInf
  | negInf
  | irrational
  deriving DecidableEq, Repr

/-- Mean of a column.  In the pipeline this is only applied to groupby
groups, which are nonempty by construction (the value on `[]` is junk). -/
def listMean (xs : List ℚ) : ℚ := xs.sum / xs.length

/-- Sample variance with the pandas default `ddof = 1`; only meaningful for
two or more samples (the guard lives in `sampleStd`). -/
def sampleVar (xs : List ℚ) : ℚ :=
  ((xs.map fun x => (x - listMean xs) ^ 2).sum) / ((xs.length : ℚ) - 1)

/-- Exact square root of a natural number, when it exists. -/
def natSqrtExact (n : ℕ) : Option ℕ :=
  if Nat.sqrt n * Nat.sqrt n = n then some (Nat.sqrt n) else none

/-- Exact square root of a rational, when the result is rational. -/
def ratSqrt (q : ℚ) : Option ℚ :=
  if q < 0 then none
  else
    match natSqrtExact q.num.toNat, natSqrtExact q.den with
    | some a, some b => some ((a : ℚ) / (b : ℚ))
    | _, _ => none

/-- Pandas `groupby('user').agg('std')`: NaN for a single-sample group,
otherwise the square root of the sample variance (rational when the
variance is a perfect square, some irrational positive real otherwise). -/
def sampleStd (xs : List ℚ) : RVal :=
  if xs.length ≤ 1 then .nan
  else
    match ratSqrt (sampleVar xs) with
    | some s => .num s
    | none => .irrational

/-- Floating division of an exact rational by an `RVal`, with IEEE-754
semantics on the special cases: `0/0` is NaN, `x/0` is a signed infinity,
anything over NaN is NaN, anything finite over an infinity is `0`, and a
nonzero rational over an irrational is irrational. -/
def rdiv (a : ℚ) (b : RVal) : RVal :=
  match b with
  | .num q =>
      if q = 0 then (if a = 0 then .nan else if 0 < a then .posInf else .negInf)
      else .num (a / q)
  | .nan => .nan
  | .posInf => .num 0
  | .negInf => .num 0
  | .irrational => if a = 0 then .num 0 else .irrational

/-- The rows of one count column keyed by user: the pipeline computes one
spike column per measure (`logon_count`, `http_requests`,
`device_activity_count`), each by the same formula, so a single generic
model covers all three. -/
def userHist (rows : List (String × ℚ)) (u : String) : List ℚ :=
  (rows.filter fun r => r.1 == u).map (·.2)

/-- The spike value of one row (line 62 of `dataExploration.py`): the
z-score of the row's value against its own user's mean/std baseline. -/
def spikeOfRow (rows : List (String × ℚ)) (r : String × ℚ) : RVal :=
  rdiv (r.2 - listMean (userHist rows r.1)) (sampleStd (userHist rows r.1))

/-- The whole spike column, one value per row of the merged table. -/
def spikeColumn (rows : List (String × ℚ)) : List RVal :=
  rows.map (spikeOfRow rows)

/-- A boolean flag column holds only the two boolean values, numerically
`0`/`1` (`False`/`True`). -/
def isBoolFlag (v : RVal) : Prop := v = RVal.num 0 ∨ v = RVal.num 1

/-! ### Trailing rolling mean (lines 75-77)

`merged_df.groupby('user')['logon_count'].transform(lambda x: x.rolling(3,
min_periods=1).mean())` after sorting by (`user`, `date`): within one
user's date-sorted series, position `i` receives the mean of the trailing
window of at most 3 samples ending at `i`; `min_periods=1` lets the window
shrink at the start of the series. -/

/-- The trailing window of at most 3 samples ending at position `i`
(natural subtraction makes `i + 1 - 3` the claim's `max 0 (i - 2)`). -/
def windowLast3 (xs : List ℚ) (i : ℕ) : List ℚ :=
  (xs.take (i + 1)).drop (i + 1 - 3)

/-- The `logon_rolling_3` column of one user's date-sorted series. -/
def logon_rolling_3 (xs : List ℚ) : List ℚ :=
  (List.range xs.length).map fun i => listMean (windowLast3 xs i)

/-- `logon_delta` (line 77): current value minus the rolling mean. -/
def logon_delta (xs : List ℚ) : List ℚ :=
  List.zipWith (fun x r => x - r) xs (logon_rolling_3 xs)

/-! ### Per-source aggregation and the full outer join (lines 15-41)

Each raw log is grouped by (`user`, `date`) — both still raw strings at
this point, `pd.to_datetime` runs only after the merge — counting rows and,
for http, summing the byte columns.  The three aggregates are then merged
two at a time with `how='outer'` and the NaNs introduced for absent
(`user`, `date`) combinations are replaced by `0` via `fillna(0)`. -/

/-- A (`user`, `date`) grouping key. -/
abbrev JKey := String × String

/-- A raw http row: key plus the two byte columns. -/
structure HttpEvent where
  key : JKey
  bytes_sent : ℚ
  bytes_received : ℚ
  deriving DecidableEq, Repr

/-- `logon_agg`: one row per distinct key, carrying `logon_count` =
number of raw logon rows with that key. -/
def logonAgg (events : List JKey) : List (JKey × ℚ) :=
  events.dedup.map fun k => (k, (events.count k : ℚ))

/-- `device_agg`: same shape as `logon_agg` (row count per key). -/
def deviceAgg (events : List JKey) : List (JKey × ℚ) :=
  events.dedup.map fun k => (k, (events.count k : ℚ))

/-- `http_agg`: one row per distinct key with `http_requests` (row count),
`http_bytes_sent` and `http_bytes_received` (column sums). -/
def httpAgg (events : List HttpEvent) : List (JKey × ℚ × ℚ × ℚ) :=
  (events.map (·.key)).dedup.map fun k =>
    (k, ((events.filter fun e => e.key == k).length : ℚ),
        ((events.filter fun e => e.key == k).map (·.bytes_sent)).sum,
        ((events.filter fun e => e.key == k).map (·.bytes_received)).sum)

/-- Key set of an outer join of two uniquely-keyed tables: the left keys
followed by the right keys not already present. -/
def joinKeys (a b : List JKey) : List JKey :=
  a ++ b.filter fun k => !(a.contains k)

/-- Keys of `merged_df` after `reduce(pd.merge(..., how='outer'))` over
`[logon_agg, http_agg, device_agg]`. -/
def mergedTableKeys (lg : List JKey) (ht : List HttpEvent) (dv : List JKey) :
    List JKey :=
  joinKeys (joinKeys lg.dedup (ht.map (·.key)).dedup) dv.dedup

/-- Measure lookup in a single-measure aggregate: `none` models the NaN an
outer join leaves for a key the source has no rows for. -/
def lookupMeasure (tbl : List (JKey × ℚ)) (k : JKey) : Option ℚ :=
  (tbl.find? fun r => r.1 == k).map (·.2)

/-- `fillna(0)` (line 41). -/
def fillna0 (v : Option ℚ) : ℚ := v.getD 0

/-- `logon_count` of key `k` in the merged, zero-filled table. -/
def merged_logon_count (lg : List JKey) (k : JKey) : ℚ :=
  fillna0 (lookupMeasure (logonAgg lg) k)

/-- `device_activity_count` of key `k` in the merged, zero-filled table. -/
def merged_device_count (dv : List JKey) (k : JKey) : ℚ :=
  fillna0 (lookupMeasure (deviceAgg dv) k)

/-- The three http measures of key `k` in the merged, zero-filled table. -/
def merged_http_measures (ht : List HttpEvent) (k : JKey) : ℚ × ℚ × ℚ :=
  match (httpAgg ht).find? fun r => r.1 == k with
  | some r => r.2
  | none => (0, 0, 0)

/-! ### Calendar fields (lines 44-51 and 72)

`pd.to_datetime` parses the raw `date` strings; when an input value carries
no time-of-day component the parsed timestamp defaults to midnight.
`DateVal` models a parsed timestamp as the calendar day plus an optional
(hour, minute) component. -/

/-- A parsed timestamp: calendar day plus optional time of day. -/
structure DateVal where
  year : ℕ
  month : ℕ
  day : ℕ
  timeOfDay : Option (ℕ × ℕ)
  deriving DecidableEq, Repr

/-- `.dt.hour` (line 49): the hour, `0` when no time of day is present. -/
def dtHour (d : DateVal) : ℕ := (d.timeOfDay.getD (0, 0)).1

/-- `.dt.minute` (line 50): the minute, `0` when no time of day is present. -/
def dtMinute (d : DateVal) : ℕ := (d.timeOfDay.getD (0, 0)).2

/-- Line 72: `1 if (h < 7 or h > 19) else 0`. -/
def is_off_hours (h : ℕ) : ℕ := if h < 7 ∨ 19 < h then 1 else 0

/-! ### Dashboard query construction (`dashboard.py`)

The dashboard composes a conjunctive `WHERE` clause from the sidebar state
(lines 169-229), runs a `COUNT(*)` query over it and halts with a warning
when the count is zero (lines 236-241) or, earlier, when no users match
the date range and none are selected (lines 199-201); otherwise it renders
KPIs, charts, a detail table capped at 1000 rows (lines 392-402) and an
uncapped export of the full filtered query (line 568). -/

/-- A row of the loaded `user_data` table, with the columns the filter
conditions touch.  The spike fields hold the outcome of the engine's
`column = TRUE` comparison for that row. -/
structure DashRow where
  user : String
  date : ℤ
  risk_level : RiskLevel
  risk_score : ℚ
  logon_spike : Bool
  http_spike : Bool
  device_spike : Bool
  deriving DecidableEq, Repr

/-- One SQL condition appended to `query_conditions`. -/
inductive Cond where
  | dateBetween (startD endD : ℤ)
  | userIn (users : List String)
  | riskLevelIn (levels : List RiskLevel)
  | logonSpikeTrue
  | httpSpikeTrue
  | deviceSpikeTrue
  deriving DecidableEq, Repr

/-- Truth of one condition at one row (the date bounds are inclusive on
both ends, `date >= start AND date <= end`). -/
def evalCond (r : DashRow) : Cond → Bool
  | .dateBetween s e => decide (s ≤ r.date) && decide (r.date ≤ e)
  | .userIn us => us.contains r.user
  | .riskLevelIn ls => ls.contains r.risk_level
  | .logonSpikeTrue => r.logon_spike
  | .httpSpikeTrue => r.http_spike
  | .deviceSpikeTrue => r.device_spike

/-- The sidebar state: date range (`none` models an incomplete range
picker, which only warns and adds no condition), the two multi-selects and
the three spike checkboxes. -/
structure Sidebar where
  dateRange : Option (ℤ × ℤ)
  selectedUsers : List String
  selectedRiskLevels : List RiskLevel
  filterLogonSpike : Bool
  filterHttpSpike : Bool
  filterDeviceSpike : Bool
  deriving DecidableEq, Repr

/-- Lines 178-182: the date condition, when the range is complete. -/
def dateConds (sb : Sidebar) : List Cond :=
  match sb.dateRange with
  | some (s, e) => [Cond.dateBetween s e]
  | none => []

/-- Lines 196-198: a `user IN (...)` condition only when the multi-select
is nonempty. -/
def userConds (sb : Sidebar) : List Cond :=
  if sb.selectedUsers.isEmpty then [] else [Cond.userIn sb.selectedUsers]

/-- Lines 209-211: a `risk_level IN (...)` condition only when the
multi-select is nonempty. -/
def riskConds (sb : Sidebar) : List Cond :=
  if sb.selectedRiskLevels.isEmpty then [] else [Cond.riskLevelIn sb.selectedRiskLevels]

/-- Lines 219-224: one `<column> = TRUE` condition per checked spike box. -/
def spikeConds (sb : Sidebar) : List Cond :=
  (if sb.filterLogonSpike then [Cond.logonSpikeTrue] else [])
    ++ (if sb.filterHttpSpike then [Cond.httpSpikeTrue] else [])
    ++ (if sb.filterDeviceSpike then [Cond.deviceSpikeTrue] else [])

/-- `query_conditions` in the order the script appends them. -/
def queryConds (sb : Sidebar) : List Cond :=
  dateConds sb ++ userConds sb ++ riskConds sb ++ spikeConds sb

/-- A row satisfies the conjunction of a condition list. -/
def rowMatches (conds : List Cond) (r : DashRow) : Bool :=
  conds.all (evalCond r)

/-- `SELECT * FROM user_data WHERE <conds>`. -/
def filterTable (t : List DashRow) (conds : List Cond) : List DashRow :=
  t.filter (rowMatches conds)

/-- Lines 187-189: `SELECT DISTINCT user` under the conditions collected so
far (the date condition only).  `ORDER BY user` affects presentation order
only, never membership, so the model keeps first-occurrence order. -/
def allUsers (t : List DashRow) (sb : Sidebar) : List String :=
  ((filterTable t (dateConds sb)).map (·.user)).dedup

/-- Line 236: `SELECT COUNT(*) FROM user_data WHERE <conds>`. -/
def countQuery (t : List DashRow) (sb : Sidebar) : ℕ :=
  (filterTable t (queryConds sb)).length

/-- The three KPI aggregates of line 244: distinct users, High-risk row
count, mean risk score. -/
structure KPI where
  total_unique_users : ℕ
  total_high_risk_events : ℕ
  avg_risk_score : ℚ
  deriving DecidableEq, Repr

/-- KPI aggregates over the filtered rows. -/
def kpiOf (rows : List DashRow) : KPI :=
  { total_unique_users := ((rows.map (·.user)).dedup).length
    total_high_risk_events :=
      (rows.filter fun r => r.risk_level == RiskLevel.High).length
    avg_risk_score := ((rows.map (·.risk_score)).sum) / rows.length }

/-- The detail table of lines 392-402: Medium/High rows, sorted by
descending risk score, `LIMIT 1000`. -/
def detailTable (rows : List DashRow) : List DashRow :=
  ((rows.filter fun r =>
      r.risk_level == RiskLevel.High || r.risk_level == RiskLevel.Medium).mergeSort
        fun a b => decide (b.risk_score ≤ a.risk_score)).take 1000

/-- The warning each `st.stop` surfaces first. -/
inductive StopWarning where
  | noUsersFound
  | noDataMatches
  deriving DecidableEq, Repr

/-- Outcome of one render pass: either halted with a warning (no KPI,
chart, detail table or export produced) or fully rendered. -/
inductive Render where
  | stopped (w : StopWarning)
  | rendered (shownCount : ℕ) (kpis : KPI) (detail : List DashRow)
      (exported : List DashRow)
  deriving DecidableEq, Repr

/-- `true` exactly when the render halted with a warning. -/
def isHalted : Render → Bool
  | .stopped _ => true
  | .rendered _ _ _ _ => false

/-- One top-to-bottom pass of the script: the users stop (lines 199-201),
the empty-result stop (lines 239-241), then the rendered views; the export
(line 568) re-issues the full filtered query with no row cap. -/
def renderDashboard (t : List DashRow) (sb : Sidebar) : Render :=
  if sb.selectedUsers.isEmpty && (allUsers t sb).isEmpty then
    .stopped .noUsersFound
  else if countQuery t sb = 0 then
    .stopped .noDataMatches
  else
    .rendered (countQuery t sb) (kpiOf (filterTable t (queryConds sb)))
      (detailTable (filterTable t (queryConds sb)))
      (filterTable t (queryConds sb))

/-! ### Helper lemmas -/

/-- An exact natural square root certifies its square. -/
lemma natSqrtExact_some {n a : ℕ} (h : natSqrtExact n = some a) : a * a = n := by
  unfold natSqrtExact at h
  split at h
  · rename_i heq
    obtain rfl : a = Nat.sqrt n := by simpa using h.symm
    exact heq
  · exact absurd h (by simp)

/-- A rational with exact square root `0` is `0`. -/
lemma ratSqrt_some_zero {q : ℚ} (h : ratSqrt q = some 0) : q = 0 := by
  unfold ratSqrt at h
  split at h
  · exact absurd h (by simp)
  · rename_i hq
    split at h
    · rename_i a b ha hb
      have ha2 : a * a = q.num.toNat := natSqrtExact_some ha
      have hb2 : b * b = q.den := natSqrtExact_some hb
      have hab : ((a : ℚ) / (b : ℚ)) = 0 := by simpa using h
      have hdpos : 0 < q.den := q.pos
      have hbne : b ≠ 0 := by intro h0; rw [h0] at hb2; omega
      have haq : (a : ℚ) = 0 := by
        rcases div_eq_zero_iff.1 hab with h' | h'
        · exact h'
        · exact absurd h' (by exact_mod_cast hbne)
      have ha0 : a = 0 := by exact_mod_cast haq
      have hnn : (0 : ℤ) ≤ q.num := Rat.num_nonneg.2 (not_lt.1 hq)
      have ht : q.num.toNat = 0 := by rw [ha0] at ha2; simpa using ha2.symm
      have hn0 : q.num = 0 := by omega
      exact Rat.num_eq_zero.1 hn0
    · exact absurd h (by simp)

/-- A list of nonnegative rationals with zero sum is all zeros. -/
lemma sum_nonneg_all_zero (l : List ℚ) (hpos : ∀ x ∈ l, 0 ≤ x) (hsum : l.sum = 0) :
    ∀ x ∈ l, x = 0 := by
  induction l with
  | nil => simp
  | cons y ys ih =>
      have hy : 0 ≤ y := hpos y (by simp)
      have hys : 0 ≤ ys.sum := List.sum_nonneg fun x hx => hpos x (by simp [hx])
      have hsum' : y + ys.sum = 0 := by simpa using hsum
      have hy0 : y = 0 := by linarith
      have hys0 : ys.sum = 0 := by linarith
      intro x hx
      rcases List.mem_cons.1 hx with hx | hx
      · simpa [hx] using hy0
      · exact ih (fun z hz => hpos z (by simp [hz])) hys0 x hx

/-- A standard deviation of exactly `0` forces at least two samples and zero
sample variance. -/
lemma sampleStd_num_zero {xs : List ℚ} (h : sampleStd xs = RVal.num 0) :
    2 ≤ xs.length ∧ sampleVar xs = 0 := by
  unfold sampleStd at h
  split at h
  · exact absurd h (by simp)
  · rename_i hlen
    constructor
    · omega
    · split at h
      · rename_i s hs
        have hs0 : s = 0 := by simpa using h
        exact ratSqrt_some_zero (hs0 ▸ hs)
      · exact absurd h (by simp)

/-- Zero sample variance means every sample equals the mean. -/
lemma sampleVar_zero_all_mean {xs : List ℚ} (h2 : 2 ≤ xs.length)
    (hv : sampleVar xs = 0) : ∀ x ∈ xs, x = listMean xs := by
  have hden : ((xs.length : ℚ) - 1) ≠ 0 := by
    have hc2 : (2 : ℚ) ≤ (xs.length : ℚ) := by exact_mod_cast h2
    intro hc
    rw [sub_eq_zero] at hc
    rw [hc] at hc2
    norm_num at hc2
  have hsum : ((xs.map fun x => (x - listMean xs) ^ 2).sum) = 0 := by
    unfold sampleVar at hv
    rcases div_eq_zero_iff.1 hv with h' | h'
    · exact h'
    · exact absurd h' hden
  have hall := sum_nonneg_all_zero _ (by
      intro x hx
      obtain ⟨y, _, rfl⟩ := List.mem_map.1 hx
      positivity) hsum
  intro x hx
  have hx0 := hall ((x - listMean xs) ^ 2) (List.mem_map.2 ⟨x, hx, rfl⟩)
  have hsq : x - listMean xs = 0 := pow_eq_zero_iff (by norm_num) |>.1 hx0
  linarith

/-- The window of `windowLast3` spelled out positionally. -/
lemma windowLast3_eq_map_range (xs : List ℚ) (i : ℕ) (h : i < xs.length) :
    windowLast3 xs i
      = (List.range (min 3 (i + 1))).map fun j => xs.getD (i + 1 - 3 + j) 0 := by
  apply List.ext_getElem
  · simp [windowLast3]
    omega
  · intro n h1 h2
    have hlen : (windowLast3 xs i).length = min 3 (i + 1) := by
      simp [windowLast3]
      omega
    have hn : n < min 3 (i + 1) := hlen ▸ h1
    have hb : i + 1 - 3 + n < xs.length := by omega
    simp only [windowLast3, List.getElem_drop, List.getElem_take, List.getElem_map,
      List.getElem_range]
    rw [List.getD_eq_getElem _ _ hb]

/-- The sum of the trailing window is the sum over indices
`max 0 (i - 2) .. i` (natural subtraction is the truncation to `0`). -/
lemma windowLast3_sum (xs : List ℚ) (i : ℕ) (h : i < xs.length) :
    (windowLast3 xs i).sum = ∑ j ∈ Finset.Icc (i - 2) i, xs.getD j 0 := by
  rw [windowLast3_eq_map_range xs i h]
  rw [← Nat.Ico_succ_right, Finset.sum_Ico_eq_sum_range]
  have h1 : i + 1 - (i - 2) = min 3 (i + 1) := by omega
  have h2 : i - 2 = i + 1 - 3 := by omega
  rw [h1, h2]
  rfl

/-- Length of the trailing window. -/
lemma windowLast3_length (xs : List ℚ) (i : ℕ) (h : i < xs.length) :
    (windowLast3 xs i).length = min 3 (i + 1) := by
  simp [windowLast3]
  omega

/-- The left join operand keeps all of its keys. -/
lemma subset_joinKeys_left (a b : List JKey) : a ⊆ joinKeys a b :=
  fun _ hx => List.mem_append_left _ hx

/-- The right join operand keeps all of its keys. -/
lemma subset_joinKeys_right (a b : List JKey) : b ⊆ joinKeys a b := by
  intro x hx
  by_cases hxa : x ∈ a
  · exact List.mem_append_left _ hxa
  · refine List.mem_append_right _ (List.mem_filter.2 ⟨hx, ?_⟩)
    simpa using hxa

/-- Joining uniquely-keyed tables keeps keys unique. -/
lemma nodup_joinKeys {a b : List JKey} (ha : a.Nodup) (hb : b.Nodup) :
    (joinKeys a b).Nodup := by
  refine List.Nodup.append ha (hb.filter _) ?_
  intro x hxa hxf
  have hm := List.of_mem_filter hxf
  simp at hm
  exact hm hxa

/-- The joined key set is at most the sum of the operands. -/
lemma length_joinKeys_le (a b : List JKey) :
    (joinKeys a b).length ≤ a.length + b.length := by
  unfold joinKeys
  rw [List.length_append]
  exact Nat.add_le_add_left (List.length_filter_le _ _) _

/-- A duplicate-free sublist is no longer than any list containing it. -/
lemma nodup_subset_length_le {a c : List JKey} (ha : a.Nodup) (hsub : a ⊆ c) :
    a.length ≤ c.length := by
  calc a.length = a.toFinset.card := (List.toFinset_card_of_nodup ha).symm
    _ ≤ c.toFinset.card := Finset.card_le_card fun x hx =>
        List.mem_toFinset.2 (hsub (List.mem_toFinset.1 hx))
    _ ≤ c.length := List.toFinset_card_le c

/-- Every row passes a `risk_level IN ('Low','Medium','High')` condition. -/
lemma evalCond_all_levels (r : DashRow) :
    evalCond r (Cond.riskLevelIn [RiskLevel.Low, RiskLevel.Medium, RiskLevel.High])
      = true := by
  cases hr : r.risk_level <;> simp only [evalCond, hr] <;> decide

/-! ### Claim theorems -/

/-- C1: with `low_thresh` and `high_thresh` the 75th/95th percentile of
`risk_score` over the full scored population, `classify_risk` assigns Low
exactly below the 75th-percentile cut, Medium exactly from the 75th up to
(strictly below) the 95th, High exactly at or above the 95th; each row's
level is the classifier applied to that row's own score under the two
global thresholds, and the stored levels of any filtered subset of rows
agree with classifying the surviving scores with the same unchanged
thresholds — no dashboard filter enters the classification. -/
theorem classify_risk_global_thresholds (low_thresh high_thresh : ℚ)
    (hth : low_thresh ≤ high_thresh) (scores : List ℚ) (i : ℕ)
    (hi : i < scores.length) (s : ℚ) :
    ((assignRiskLevels low_thresh high_thresh scores).getD i RiskLevel.Low
        = classify_risk low_thresh high_thresh (scores.getD i 0))
    ∧ (classify_risk low_thresh high_thresh s = RiskLevel.Low ↔ s < low_thresh)
    ∧ (classify_risk low_thresh high_thresh s = RiskLevel.Medium ↔
        low_thresh ≤ s ∧ s < high_thresh)
    ∧ (classify_risk low_thresh high_thresh s = RiskLevel.High ↔ high_thresh ≤ s)
    ∧ (∀ p : ℚ → Bool,
        ((scores.map fun x => (x, classify_risk low_thresh high_thresh x)).filter
            fun y => p y.1).map (·.2)
          = assignRiskLevels low_thresh high_thresh (scores.filter p)) := by
  refine ⟨?_, ?_, ?_, ?_, ?_⟩
  · have hlen : i < (assignRiskLevels low_thresh high_thresh scores).length := by
      simpa [assignRiskLevels] using hi
    rw [List.getD_eq_getElem _ _ hlen, List.getD_eq_getElem _ _ hi]
    simp [assignRiskLevels]
  · unfold classify_risk
    split_ifs with h1 h2 <;> simp_all
  · unfold classify_risk
    split_ifs with h1 h2 <;> simp_all
  · unfold classify_risk
    split_ifs with h1 h2 <;> simp_all
    linarith
  · intro p
    clear hi
    unfold assignRiskLevels
    rw [List.filter_map]
    induction scores with
    | nil => rfl
    | cons x xs ih =>
        by_cases hx : p x <;> simp_all [Function.comp]

/-- C1 witness: the theorem at thresholds `0 ≤ 1`, scores `[-1, 0, 2]`,
row `0` and probe score `1/2`. -/
theorem classify_risk_global_thresholds_witness :
    ((assignRiskLevels 0 1 [-1, 0, 2]).getD 0 RiskLevel.Low
        = classify_risk 0 1 (([-1, 0, 2] : List ℚ).getD 0 0))
    ∧ (classify_risk 0 1 (1 / 2 : ℚ) = RiskLevel.Low ↔ (1 / 2 : ℚ) < 0)
    ∧ (classify_risk 0 1 (1 / 2 : ℚ) = RiskLevel.Medium ↔
        (0 : ℚ) ≤ 1 / 2 ∧ (1 / 2 : ℚ) < 1)
    ∧ (classify_risk 0 1 (1 / 2 : ℚ) = RiskLevel.High ↔ (1 : ℚ) ≤ 1 / 2)
    ∧ (∀ p : ℚ → Bool,
        ((([-1, 0, 2] : List ℚ).map fun x => (x, classify_risk 0 1 x)).filter
            fun y => p y.1).map (·.2)
          = assignRiskLevels 0 1 (([-1, 0, 2] : List ℚ).filter p)) :=
  classify_risk_global_thresholds 0 1 (by norm_num) [-1, 0, 2] 0 (by norm_num) (1 / 2)

/-- C3: `classify_risk` is monotone: under any thresholds, a smaller or
equal risk score never receives a strictly higher tier in the order
Low < Medium < High. -/
theorem risk_level_monotone (low_thresh high_thresh s1 s2 : ℚ) (h : s1 ≤ s2) :
    levelRank (classify_risk low_thresh high_thresh s1)
      ≤ levelRank (classify_risk low_thresh high_thresh s2) := by
  unfold classify_risk
  split_ifs <;> simp [levelRank] <;> linarith

/-- C3 witness: the theorem at thresholds `0, 1` and scores `1/4 ≤ 1/2`. -/
theorem risk_level_monotone_witness :
    levelRank (classify_risk 0 1 (1 / 4 : ℚ))
      ≤ levelRank (classify_risk 0 1 (1 / 2 : ℚ)) :=
  risk_level_monotone 0 1 (1 / 4) (1 / 2) (by norm_num)

/-- C5: for one user's date-sorted series, `logon_rolling_3` at row `i`
is the arithmetic mean of the values at rows `max 0 (i-2) .. i` (written
with truncated natural subtraction `i - 2`), a window of `min 3 (i+1)`
samples that shrinks to 1 resp. 2 samples at the user's first two records,
and `logon_delta` at row `i` is the value minus the rolling mean. -/
theorem logon_rolling3_trailing_mean (xs : List ℚ) (i : ℕ) (h : i < xs.length) :
    (logon_rolling_3 xs).getD i 0
        = (∑ j ∈ Finset.Icc (i - 2) i, xs.getD j 0) / ((Finset.Icc (i - 2) i).card : ℚ)
    ∧ (Finset.Icc (i - 2) i).card = min 3 (i + 1)
    ∧ (logon_delta xs).getD i 0 = xs.getD i 0 - (logon_rolling_3 xs).getD i 0 := by
  have hcard : (Finset.Icc (i - 2) i).card = min 3 (i + 1) := by
    rw [Nat.card_Icc]; omega
  have hlenr : (logon_rolling_3 xs).length = xs.length := by
    simp [logon_rolling_3]
  have hroll : (logon_rolling_3 xs).getD i 0 = listMean (windowLast3 xs i) := by
    rw [List.getD_eq_getElem _ _ (by simpa [hlenr] using h)]
    simp [logon_rolling_3]
  refine ⟨?_, hcard, ?_⟩
  · rw [hroll, listMean, windowLast3_sum xs i h, windowLast3_length xs i h, hcard]
  · have hlend : (logon_delta xs).length = xs.length := by
      simp [logon_delta, hlenr]
    rw [List.getD_eq_getElem _ _ (by simpa [hlend] using h),
      List.getD_eq_getElem _ _ h, List.getD_eq_getElem _ _ (by simpa [hlenr] using h)]
    simp [logon_delta]

/-- C5 witness: the theorem on the series `[1, 2, 6]` at its third row. -/
theorem logon_rolling3_trailing_mean_witness :
    (logon_rolling_3 [1, 2, 6]).getD 2 0
        = (∑ j ∈ Finset.Icc (2 - 2) 2, ([1, 2, 6] : List ℚ).getD j 0)
            / ((Finset.Icc (2 - 2) 2).card : ℚ)
    ∧ (Finset.Icc (2 - 2) 2).card = min 3 (2 + 1)
    ∧ (logon_delta [1, 2, 6]).getD 2 0
        = ([1, 2, 6] : List ℚ).getD 2 0 - (logon_rolling_3 [1, 2, 6]).getD 2 0 :=
  logon_rolling3_trailing_mean [1, 2, 6] 2 (by norm_num)

/-- C6: the scoring step has no guard for zero variance: whenever a user's
count measure has standard deviation exactly `0` over that user's history,
the z-score division `(value - user_mean) / user_std` divides by zero and
every one of that user's rows receives NaN — an undefined, not-a-number
value — in the corresponding spike column. -/
theorem zero_variance_spike_nan (rows : List (String × ℚ)) (u : String)
    (hstd : sampleStd (userHist rows u) = RVal.num 0) :
    ∀ r ∈ rows, r.1 = u → spikeOfRow rows r = RVal.nan := by
  intro r hr hu
  obtain ⟨h2, hv⟩ := sampleStd_num_zero hstd
  have hmem : r.2 ∈ userHist rows u := by
    refine List.mem_map.2 ⟨r, ?_, rfl⟩
    refine List.mem_filter.2 ⟨hr, ?_⟩
    simpa using hu
  have hx := sampleVar_zero_all_mean h2 hv r.2 hmem
  unfold spikeOfRow
  rw [hu, hstd]
  simp [rdiv, sub_eq_zero.2 hx]

/-- C6 witness: the theorem on a user whose two logon counts are both `2`
(zero variance), at that user's first row. -/
theorem zero_variance_spike_nan_witness :
    spikeOfRow [("a", 2), ("a", 2)] ("a", 2) = RVal.nan :=
  zero_variance_spike_nan [("a", 2), ("a", 2)] "a"
    (by simp [sampleStd, userHist, sampleVar, listMean, ratSqrt, natSqrtExact])
    ("a", 2) (by simp) rfl

/-- C2 counterexample: in the pipeline's own output the spike columns are
not boolean: for the single user `"a"` with logon counts `[1, 2, 3]`, the
first row's `logon_spike` value is the z-score `-1`, which is neither of
the two boolean values. -/
theorem spike_column_not_boolean :
    spikeOfRow [("a", 1), ("a", 2), ("a", 3)] ("a", 1) = RVal.num (-1)
    ∧ ¬ isBoolFlag (spikeOfRow [("a", 1), ("a", 2), ("a", 3)] ("a", 1)) := by
  have h : spikeOfRow [("a", 1), ("a", 2), ("a", 3)] ("a", 1) = RVal.num (-1) := by
    simp [spikeOfRow, userHist, sampleStd, sampleVar, listMean, ratSqrt,
      natSqrtExact, rdiv]
    norm_num
  refine ⟨h, ?_⟩
  rw [h]
  rintro (hc | hc) <;> rw [RVal.num.injEq] at hc <;> norm_num at hc

/-- C2 (amended): the spike columns produced upstream are continuous
per-user z-scores `(value - user_mean) / user_std`, not thresholded
boolean flags; the dashboard's three spike checkboxes do append conditions
like `logon_spike = TRUE` to the conjunctive filter, one per checked
box. -/
theorem spike_columns_hold_zscores :
    (∀ (rows : List (String × ℚ)) (r : String × ℚ) (s : ℚ), r ∈ rows →
      sampleStd (userHist rows r.1) = RVal.num s → s ≠ 0 →
      spikeOfRow rows r = RVal.num ((r.2 - listMean (userHist rows r.1)) / s))
    ∧ (∀ sb : Sidebar,
        (Cond.logonSpikeTrue ∈ queryConds sb ↔ sb.filterLogonSpike = true)
        ∧ (Cond.httpSpikeTrue ∈ queryConds sb ↔ sb.filterHttpSpike = true)
        ∧ (Cond.deviceSpikeTrue ∈ queryConds sb ↔ sb.filterDeviceSpike = true)) := by
  constructor
  · intro rows r s hr hstd hs
    unfold spikeOfRow
    rw [hstd]
    simp [rdiv, hs]
  · intro sb
    rcases hdr : sb.dateRange with _ | ⟨s0, e0⟩ <;>
      refine ⟨?_, ?_, ?_⟩ <;>
        simp [queryConds, dateConds, userConds, riskConds, spikeConds, hdr]

/-- C2 witness: the amended theorem at the user `"a"` with logon counts
`[1, 2, 3]` (standard deviation `1`) and at a sidebar with only the logon
checkbox ticked. -/
theorem spike_columns_hold_zscores_witness :
    spikeOfRow [("a", 1), ("a", 2), ("a", 3)] ("a", 1)
      = RVal.num ((1 - listMean (userHist [("a", 1), ("a", 2), ("a", 3)] "a")) / 1)
    ∧ ((Cond.logonSpikeTrue ∈
          queryConds ⟨none, [], [], true, false, false⟩
        ↔ (⟨none, [], [], true, false, false⟩ : Sidebar).filterLogonSpike = true)
      ∧ (Cond.httpSpikeTrue ∈
          queryConds ⟨none, [], [], true, false, false⟩
        ↔ (⟨none, [], [], true, false, false⟩ : Sidebar).filterHttpSpike = true)
      ∧ (Cond.deviceSpikeTrue ∈
          queryConds ⟨none, [], [], true, false, false⟩
        ↔ (⟨none, [], [], true, false, false⟩ : Sidebar).filterDeviceSpike = true)) :=
  ⟨spike_columns_hold_zscores.1 [("a", 1), ("a", 2), ("a", 3)] ("a", 1) 1
      (by simp)
      (by simp [sampleStd, userHist, sampleVar, listMean, ratSqrt, natSqrtExact]
          norm_num)
      one_ne_zero,
    spike_columns_hold_zscores.2 ⟨none, [], [], true, false, false⟩⟩

/-- C4: after the full outer join of the three per-(`user`,`date`)
aggregates with `fillna(0)`: the merged key set is duplicate-free, every
measure of a source with no raw rows for a key is `0` (logon count, the
three http measures, device count), and the merged row count lies between
the maximum and the sum of the three aggregates' row counts. -/
theorem merged_outer_join_properties (lg : List JKey) (ht : List HttpEvent)
    (dv : List JKey) :
    (mergedTableKeys lg ht dv).Nodup
    ∧ (∀ k, k ∉ lg → merged_logon_count lg k = 0)
    ∧ (∀ k, (∀ e ∈ ht, e.key ≠ k) → merged_http_measures ht k = (0, 0, 0))
    ∧ (∀ k, k ∉ dv → merged_device_count dv k = 0)
    ∧ max (logonAgg lg).length (max (httpAgg ht).length (deviceAgg dv).length)
        ≤ (mergedTableKeys lg ht dv).length
    ∧ (mergedTableKeys lg ht dv).length
        ≤ (logonAgg lg).length + (httpAgg ht).length + (deviceAgg dv).length := by
  have hlg : (logonAgg lg).length = lg.dedup.length := by simp [logonAgg]
  have hht : (httpAgg ht).length = (ht.map (·.key)).dedup.length := by simp [httpAgg]
  have hdv : (deviceAgg dv).length = dv.dedup.length := by simp [deviceAgg]
  have hnodup : (mergedTableKeys lg ht dv).Nodup :=
    nodup_joinKeys (nodup_joinKeys (List.nodup_dedup _) (List.nodup_dedup _))
      (List.nodup_dedup _)
  refine ⟨hnodup, ?_, ?_, ?_, ?_, ?_⟩
  · intro k hk
    have hfind : (logonAgg lg).find? (fun r => r.1 == k) = none := by
      refine List.find?_eq_none.2 fun r hr => ?_
      obtain ⟨k2, hk2, rfl⟩ := List.mem_map.1 hr
      simp only [beq_iff_eq]
      intro hc
      exact hk (hc ▸ List.mem_dedup.1 hk2)
    simp [merged_logon_count, lookupMeasure, fillna0, hfind]
  · intro k hk
    have hfind : (httpAgg ht).find? (fun r => r.1 == k) = none := by
      refine List.find?_eq_none.2 fun r hr => ?_
      obtain ⟨k2, hk2, rfl⟩ := List.mem_map.1 hr
      simp only [beq_iff_eq]
      intro hc
      obtain ⟨e, he, hek⟩ := List.mem_map.1 (List.mem_dedup.1 hk2)
      exact hk e he (hek.trans hc)
    simp [merged_http_measures, hfind]
  · intro k hk
    have hfind : (deviceAgg dv).find? (fun r => r.1 == k) = none := by
      refine List.find?_eq_none.2 fun r hr => ?_
      obtain ⟨k2, hk2, rfl⟩ := List.mem_map.1 hr
      simp only [beq_iff_eq]
      intro hc
      exact hk (hc ▸ List.mem_dedup.1 hk2)
    simp [merged_device_count, lookupMeasure, fillna0, hfind]
  · rw [hlg, hht, hdv]
    have h1 : lg.dedup.length ≤ (mergedTableKeys lg ht dv).length :=
      nodup_subset_length_le (List.nodup_dedup _)
        ((subset_joinKeys_left _ _).trans (subset_joinKeys_left _ _))
    have h2 : (ht.map (·.key)).dedup.length ≤ (mergedTableKeys lg ht dv).length :=
      nodup_subset_length_le (List.nodup_dedup _)
        ((subset_joinKeys_right _ _).trans (subset_joinKeys_left _ _))
    have h3 : dv.dedup.length ≤ (mergedTableKeys lg ht dv).length :=
      nodup_subset_length_le (List.nodup_dedup _) (subset_joinKeys_right _ _)
    omega
  · rw [hlg, hht, hdv]
    calc (mergedTableKeys lg ht dv).length
        ≤ (joinKeys lg.dedup (ht.map (·.key)).dedup).length + dv.dedup.length :=
          length_joinKeys_le _ _
      _ ≤ lg.dedup.length + (ht.map (·.key)).dedup.length + dv.dedup.length := by
          have hj := length_joinKeys_le lg.dedup (ht.map (·.key)).dedup
          omega

/-- C4 witness: the zero-fill implications of the theorem discharged at a
concrete input: one logon key, one http event, an empty device log, probed
at a key absent from every source. -/
theorem merged_outer_join_properties_witness :
    merged_logon_count [("u", "d1")] ("v", "x") = 0
    ∧ merged_http_measures [⟨("u", "d2"), 3, 4⟩] ("v", "x") = (0, 0, 0)
    ∧ merged_device_count [] ("v", "x") = 0 :=
  ⟨(merged_outer_join_properties [("u", "d1")] [⟨("u", "d2"), 3, 4⟩] []).2.1
      ("v", "x") (by simp),
    (merged_outer_join_properties [("u", "d1")] [⟨("u", "d2"), 3, 4⟩] []).2.2.1
      ("v", "x") (by simp),
    (merged_outer_join_properties [("u", "d1")] [⟨("u", "d2"), 3, 4⟩] []).2.2.2.1
      ("v", "x") (by simp)⟩

/-- C7: whenever a render completes (is not halted), the exported rows are
exactly as many as the `COUNT(*)` KPI over the same `WHERE` clause — the
shown record count — while the 1000-row cap constrains only the on-screen
detail table. -/
theorem export_row_count_equals_kpi_count (t : List DashRow) (sb : Sidebar)
    (c : ℕ) (k : KPI) (d e : List DashRow)
    (h : renderDashboard t sb = Render.rendered c k d e) :
    e.length = countQuery t sb ∧ c = countQuery t sb ∧ d.length ≤ 1000 := by
  unfold renderDashboard at h
  split at h
  · exact absurd h (by simp)
  · split at h
    · exact absurd h (by simp)
    · rw [Render.rendered.injEq] at h
      obtain ⟨hc, hk, hd, he⟩ := h
      refine ⟨?_, hc.symm, ?_⟩
      · rw [← he]; rfl
      · rw [← hd]
        simp only [detailTable, List.length_take]
        exact min_le_left _ _

/-- C7 witness: the theorem at a one-row table and a sidebar with no
conditions, where the render completes with one exported row. -/
theorem export_row_count_equals_kpi_count_witness :
    ([(⟨"u1", 5, RiskLevel.High, 1, false, false, false⟩ : DashRow)].length
        = countQuery [⟨"u1", 5, RiskLevel.High, 1, false, false, false⟩]
            ⟨none, [], [], false, false, false⟩)
    ∧ (1 = countQuery [⟨"u1", 5, RiskLevel.High, 1, false, false, false⟩]
            ⟨none, [], [], false, false, false⟩)
    ∧ ([(⟨"u1", 5, RiskLevel.High, 1, false, false, false⟩ : DashRow)].length
        ≤ 1000) :=
  export_row_count_equals_kpi_count
    [⟨"u1", 5, RiskLevel.High, 1, false, false, false⟩]
    ⟨none, [], [], false, false, false⟩ 1 ⟨1, 1, 1⟩
    [⟨"u1", 5, RiskLevel.High, 1, false, false, false⟩]
    [⟨"u1", 5, RiskLevel.High, 1, false, false, false⟩]
    (by simp [renderDashboard, countQuery, allUsers, filterTable, rowMatches,
      queryConds, dateConds, userConds, riskConds, spikeConds, evalCond,
      kpiOf, detailTable])

/-- C8: when the composed conjunctive filter matches zero rows, the render
halts with a warning: no KPI, chart, detail table or export is produced. -/
theorem empty_filter_halts_render (t : List DashRow) (sb : Sidebar)
    (h : countQuery t sb = 0) :
    isHalted (renderDashboard t sb) = true := by
  unfold renderDashboard
  split
  · rfl
  · rfl

/-- C8 witness: the theorem on an empty table with a default sidebar. -/
theorem empty_filter_halts_render_witness :
    isHalted (renderDashboard [] ⟨none, ["u1"], [], false, false, false⟩) = true :=
  empty_filter_halts_render [] ⟨none, ["u1"], [], false, false, false⟩
    (by simp [countQuery, filterTable])

/-- C9: an empty risk-level multi-select adds no `risk_level` condition and
renders exactly as selecting all three levels; an empty user multi-select
(when matching users exist) adds no `user` condition and renders exactly
as selecting every matching user. -/
theorem empty_multiselect_selects_all (t : List DashRow) (sb : Sidebar) :
    (sb.selectedRiskLevels = [] →
      riskConds sb = []
      ∧ renderDashboard t sb
          = renderDashboard t
              { sb with selectedRiskLevels :=
                  [RiskLevel.Low, RiskLevel.Medium, RiskLevel.High] })
    ∧ (sb.selectedUsers = [] → allUsers t sb ≠ [] →
      userConds sb = []
      ∧ renderDashboard t sb
          = renderDashboard t { sb with selectedUsers := allUsers t sb }) := by
  constructor
  · intro hsel
    have hrc : riskConds sb = [] := by simp [riskConds, hsel]
    refine ⟨hrc, ?_⟩
    have hft : filterTable t
        (queryConds { sb with selectedRiskLevels :=
          [RiskLevel.Low, RiskLevel.Medium, RiskLevel.High] })
        = filterTable t (queryConds sb) := by
      unfold filterTable
      apply List.filter_congr
      intro r hr
      simp [rowMatches, queryConds, List.all_append, dateConds, userConds,
        riskConds, spikeConds, hsel, evalCond_all_levels r]
    unfold renderDashboard countQuery
    rw [hft]
    rfl
  · intro hsel hau
    have huc : userConds sb = [] := by simp [userConds, hsel]
    refine ⟨huc, ?_⟩
    have hauE : (allUsers t sb).isEmpty = false := by
      cases hE : (allUsers t sb).isEmpty
      · rfl
      · exact absurd (List.isEmpty_iff.1 hE) hau
    have hdc : dateConds { sb with selectedUsers := allUsers t sb }
        = dateConds sb := rfl
    have hrc2 : riskConds { sb with selectedUsers := allUsers t sb }
        = riskConds sb := rfl
    have hsc : spikeConds { sb with selectedUsers := allUsers t sb }
        = spikeConds sb := rfl
    have hu2 : userConds { sb with selectedUsers := allUsers t sb }
        = [Cond.userIn (allUsers t sb)] := by
      simp [userConds, hauE]
    have hmatch : ∀ r ∈ t,
        rowMatches (queryConds { sb with selectedUsers := allUsers t sb }) r
          = rowMatches (queryConds sb) r := by
      intro r hr
      simp only [rowMatches, queryConds, List.all_append, hdc, hrc2, hsc, hu2, huc]
      cases hdate : (dateConds sb).all (evalCond r)
      · simp [hdate]
      · have hmem : r.user ∈ allUsers t sb := by
          refine List.mem_dedup.2 (List.mem_map.2 ⟨r, ?_, rfl⟩)
          exact List.mem_filter.2 ⟨hr, hdate⟩
        simp [hdate, evalCond, hmem]
    have hft : filterTable t
        (queryConds { sb with selectedUsers := allUsers t sb })
        = filterTable t (queryConds sb) := List.filter_congr hmatch
    unfold renderDashboard countQuery
    rw [hft]
    simp [hsel, hauE]

/-- C9 witness: the theorem at a one-row table and a sidebar with both
multi-selects empty (one matching user exists). -/
theorem empty_multiselect_selects_all_witness :
    (riskConds ⟨none, [], [], false, false, false⟩ = []
      ∧ renderDashboard [⟨"u1", 5, RiskLevel.High, 1, false, false, false⟩]
            ⟨none, [], [], false, false, false⟩
          = renderDashboard [⟨"u1", 5, RiskLevel.High, 1, false, false, false⟩]
              ⟨none, [], [RiskLevel.Low, RiskLevel.Medium, RiskLevel.High],
                false, false, false⟩)
    ∧ (userConds ⟨none, [], [], false, false, false⟩ = []
      ∧ renderDashboard [⟨"u1", 5, RiskLevel.High, 1, false, false, false⟩]
            ⟨none, [], [], false, false, false⟩
          = renderDashboard [⟨"u1", 5, RiskLevel.High, 1, false, false, false⟩]
              ⟨none,
                allUsers [⟨"u1", 5, RiskLevel.High, 1, false, false, false⟩]
                  ⟨none, [], [], false, false, false⟩,
                [], false, false, false⟩) :=
  ⟨(empty_multiselect_selects_all
      [⟨"u1", 5, RiskLevel.High, 1, false, false, false⟩]
      ⟨none, [], [], false, false, false⟩).1 rfl,
    (empty_multiselect_selects_all
      [⟨"u1", 5, RiskLevel.High, 1, false, false, false⟩]
      ⟨none, [], [], false, false, false⟩).2 rfl
      (by simp [allUsers, filterTable, dateConds, rowMatches])⟩

/-- C10: feeding the calendar-field derivation pure dates (no time-of-day
component, the situation at the daily (`user`, `date`) grain) makes every
row's `hour` and `minute` equal `0`, so `is_off_hours` is `1` on every row
and never distinguishes two rows. -/
theorem pure_dates_make_off_hours_constant (dates : List DateVal)
    (h : ∀ d ∈ dates, d.timeOfDay = none) :
    (∀ d ∈ dates, dtHour d = 0 ∧ dtMinute d = 0 ∧ is_off_hours (dtHour d) = 1)
    ∧ (∀ d ∈ dates, ∀ d2 ∈ dates,
        is_off_hours (dtHour d) = is_off_hours (dtHour d2)) := by
  have key : ∀ d ∈ dates, dtHour d = 0 ∧ dtMinute d = 0 := by
    intro d hd
    simp [dtHour, dtMinute, h d hd]
  refine ⟨fun d hd => ⟨(key d hd).1, (key d hd).2, ?_⟩, fun d hd d2 hd2 => ?_⟩
  · rw [(key d hd).1]; rfl
  · rw [(key d hd).1, (key d2 hd2).1]

/-- C10 witness: the theorem on a one-row table holding the pure date
2010-01-02. -/
theorem pure_dates_make_off_hours_constant_witness :
    (∀ d ∈ [DateVal.mk 2010 1 2 none],
      dtHour d = 0 ∧ dtMinute d = 0 ∧ is_off_hours (dtHour d) = 1)
    ∧ (∀ d ∈ [DateVal.mk 2010 1 2 none], ∀ d2 ∈ [DateVal.mk 2010 1 2 none],
        is_off_hours (dtHour d) = is_off_hours (dtHour d2)) :=
  pure_dates_make_off_hours_constant [DateVal.mk 2010 1 2 none] (by simp)

end RetailThreat
